import Mathlib

/-!
Shallow embedding of the funnel-builder graph-state manager
(`src/store/funnelStore.ts`, types from `src/types.ts`), together with the
reactflow v11 `addEdge` helper the store calls.  JavaScript's millisecond
clock `Date.now()` is passed in explicitly as a `now` argument, and the
JSON boundary (`JSON.parse` / `JSON.stringify`) is modelled by a `Json`
value type: a parse outcome is `Option Json` (`none` = the parser threw).
-/

namespace Funnel

/-- The five node categories (`NodeType` in `src/types.ts`). -/
inductive NodeType where
  | sales
  | order
  | upsell
  | downsell
  | thankyou
deriving DecidableEq, Repr, Fintype

/-- The string literal each category is written as in the source. -/
def NodeType.key : NodeType → String
  | .sales => "sales"
  | .order => "order"
  | .upsell => "upsell"
  | .downsell => "downsell"
  | .thankyou => "thankyou"

/-- Display metadata for a category (`NODE_CONFIGS` entry in `src/types.ts`). -/
structure NodeConfig where
  label : String
  buttonLabel : String
  color : String
  icon : String
  description : String
deriving DecidableEq, Repr

/-- The static type registry `NODE_CONFIGS` from `src/types.ts`. -/
def NODE_CONFIGS : NodeType → NodeConfig
  | .sales => ⟨"Sales Page", "Buy Now", "#3b82f6", "P", "Landing page to capture interest"⟩
  | .order => ⟨"Order Page", "Complete Order", "#8b5cf6", "C", "Checkout and payment page"⟩
  | .upsell => ⟨"Upsell", "Yes, Add This!", "#10b981", "U", "Offer additional products"⟩
  | .downsell => ⟨"Downsell", "Get This Instead", "#f59e0b", "D", "Alternative offer if upsell declined"⟩
  | .thankyou => ⟨"Thank You", "Continue", "#ec4899", "T", "Order confirmation page"⟩

/-- A 2D canvas coordinate. -/
structure Position where
  x : Int
  y : Int
deriving DecidableEq, Repr

/-- The `data` payload of a node (`FunnelNodeData` in `src/types.ts`). -/
structure NodeData where
  type : NodeType
  label : String
  buttonLabel : String
deriving DecidableEq, Repr

/-- A graph node (reactflow `Node<FunnelNodeData>`); `type` is always the
literal `"funnelNode"` for nodes created by the store. -/
structure FunnelNode where
  id : String
  type : String
  position : Position
  data : NodeData
deriving DecidableEq, Repr

/-- The `markerEnd` record attached to every edge the store creates. -/
structure Marker where
  type : String
  color : String
deriving DecidableEq, Repr

/-- The `style` record attached to every edge the store creates. -/
structure EdgeStyle where
  stroke : String
  strokeWidth : Nat
deriving DecidableEq, Repr

/-- A directed edge (reactflow `Edge`).  `sourceHandle` / `targetHandle`
are `string | null` in the source, hence `Option String` here. -/
structure FunnelEdge where
  id : String
  source : String
  target : String
  sourceHandle : Option String
  targetHandle : Option String
  type : String
  animated : Bool
  markerEnd : Marker
  style : EdgeStyle
deriving DecidableEq, Repr

/-- The per-category creation counters (`Record<NodeType, number>`). -/
structure Counters where
  sales : Nat
  order : Nat
  upsell : Nat
  downsell : Nat
  thankyou : Nat
deriving DecidableEq, Repr

/-- Dynamic read `nodeCounters[type]`. -/
def Counters.get (c : Counters) : NodeType → Nat
  | .sales => c.sales
  | .order => c.order
  | .upsell => c.upsell
  | .downsell => c.downsell
  | .thankyou => c.thankyou

/-- Dynamic write `{ ...nodeCounters, [type]: v }`. -/
def Counters.set (c : Counters) : NodeType → Nat → Counters
  | .sales, v => { c with sales := v }
  | .order, v => { c with order := v }
  | .upsell, v => { c with upsell := v }
  | .downsell, v => { c with downsell := v }
  | .thankyou, v => { c with thankyou := v }

/-- `getInitialCounters` from `funnelStore.ts`: every category at zero. -/
def getInitialCounters : Counters := ⟨0, 0, 0, 0, 0⟩

/-- The in-memory store state `(nodes, edges, nodeCounters)`. -/
structure Snapshot where
  nodes : List FunnelNode
  edges : List FunnelEdge
  nodeCounters : Counters
deriving DecidableEq, Repr

/-- The state the store is created with: empty collections, zero counters. -/
def emptySnapshot : Snapshot := ⟨[], [], getInitialCounters⟩

/-- A reactflow `Connection`: all four fields are `string | null`. -/
structure Connection where
  source : Option String
  target : Option String
  sourceHandle : Option String
  targetHandle : Option String
deriving DecidableEq, Repr

/-- A validation diagnostic (`ValidationIssue` in `src/types.ts`);
`type` is `"error"` or `"warning"`. -/
structure ValidationIssue where
  type : String
  message : String
  nodeId : Option String
deriving DecidableEq, Repr

/-! ### Decimal rendering

JavaScript renders the numbers interpolated into template literals
(`` `${type}-${Date.now()}` ``, `` `${config.label} ${newCount}` ``) in
decimal.  `toDecimal` is that rendering for a nonnegative integer. -/

/-- Decimal digits of `n`, least significant first (empty for `0`);
structural recursion on a fuel bound of at least the digit count. -/
def decimalRevCore : Nat → Nat → List Char
  | 0, _ => []
  | fuel + 1, n =>
    if n = 0 then [] else Nat.digitChar (n % 10) :: decimalRevCore fuel (n / 10)

/-- Decimal digits of `n`, least significant first (empty for `0`). -/
def decimalRev (n : Nat) : List Char := decimalRevCore n n

/-- JavaScript's decimal string for a nonnegative integer. -/
def toDecimal (n : Nat) : String :=
  if n = 0 then "0" else String.mk (decimalRev n).reverse

/-- The id `addNode` generates: `` `${type}-${Date.now()}` ``. -/
def idString (t : NodeType) (now : Nat) : String :=
  t.key ++ "-" ++ toDecimal now

/-! ### Store operations -/

/-- The node record `addNode` builds from the current counters, the
requested category, the drop position, and the clock value. -/
def newNodeFor (type : NodeType) (position : Position) (now : Nat)
    (counters : Counters) : FunnelNode :=
  let config := NODE_CONFIGS type
  let newCount := counters.get type + 1
  let label :=
    if type = .sales ∨ type = .order ∨ type = .thankyou then config.label
    else config.label ++ " " ++ toDecimal newCount
  { id := idString type now
    type := "funnelNode"
    position := position
    data := { type := type, label := label, buttonLabel := config.buttonLabel } }

/-- `addNode` from `funnelStore.ts`: appends the freshly built node and
bumps the category counter (`Date.now()` passed in as `now`). -/
def addNode (type : NodeType) (position : Position) (now : Nat)
    (s : Snapshot) : Snapshot :=
  { s with
    nodes := s.nodes ++ [newNodeFor type position now s.nodeCounters]
    nodeCounters := s.nodeCounters.set type (s.nodeCounters.get type + 1) }

/-- `deleteNode`: drops the node with that id and every edge whose source
or target equals it. -/
def deleteNode (nodeId : String) (s : Snapshot) : Snapshot :=
  { s with
    nodes := s.nodes.filter fun n => n.id != nodeId
    edges := s.edges.filter fun e => e.source != nodeId && e.target != nodeId }

/-- `deleteEdge`: drops the edge with that id. -/
def deleteEdge (edgeId : String) (s : Snapshot) : Snapshot :=
  { s with edges := s.edges.filter fun e => e.id != edgeId }

/-- The relabelled copy of a node produced by `updateNodeLabel`'s map. -/
def relabel (n : FunnelNode) (label : String) : FunnelNode :=
  { n with data := { n.data with label := label } }

/-- `updateNodeLabel`: maps over the nodes, replacing the label of every
node whose id matches; the store itself applies no trimming or
emptiness check. -/
def updateNodeLabel (nodeId : String) (label : String) (s : Snapshot) : Snapshot :=
  { s with nodes := s.nodes.map fun n => if n.id = nodeId then relabel n label else n }

/-- ECMAScript `String.prototype.trim`: strip leading and trailing
whitespace (modelled on the character list). -/
def jsTrim (s : String) : String :=
  String.mk (((s.data.dropWhile Char.isWhitespace).reverse.dropWhile
    Char.isWhitespace).reverse)

/-- The store effect of `handleBlur` in the node widget
(`FunnelNode.tsx`): it calls `updateNodeLabel` with the trimmed text only
when the edited text trims to something nonempty and differs from the
current label. -/
def handleBlur (id : String) (dataLabel : String) (editLabel : String)
    (s : Snapshot) : Snapshot :=
  if jsTrim editLabel ≠ "" ∧ editLabel ≠ dataLabel
  then updateNodeLabel id (jsTrim editLabel) s
  else s

/-! ### Connecting (reactflow v11 `addEdge` + the store's `onConnect`) -/

/-- JavaScript truthiness of a `string | null` handle or endpoint:
falsy when null/undefined or the empty string. -/
def strFalsy : Option String → Bool
  | none => true
  | some s => s == ""

/-- reactflow's handle comparison inside `connectionExists`:
`el.h === e.h || (!el.h && !e.h)`. -/
def handlesMatch (a b : Option String) : Bool :=
  a == b || (strFalsy a && strFalsy b)

/-- reactflow v11 `connectionExists`: an edge with the same source,
target, and (falsy-insensitive) handles is already present. -/
def connectionExists (e : FunnelEdge) (edges : List FunnelEdge) : Bool :=
  edges.any fun el =>
    el.source == e.source && el.target == e.target &&
    handlesMatch el.sourceHandle e.sourceHandle &&
    handlesMatch el.targetHandle e.targetHandle

/-- reactflow v11 `addEdge`: refuses falsy endpoints, drops duplicates of
an existing connection, otherwise appends. -/
def addEdge (e : FunnelEdge) (edges : List FunnelEdge) : List FunnelEdge :=
  if strFalsy (some e.source) || strFalsy (some e.target) then edges
  else if connectionExists e edges then edges
  else edges ++ [e]

/-- The edge record `onConnect` builds:
id `` `e${source}-${target}` ``, constant styling. -/
def mkNewEdge (src tgt : String) (sh th : Option String) : FunnelEdge :=
  { id := "e" ++ src ++ "-" ++ tgt
    source := src
    target := tgt
    sourceHandle := sh
    targetHandle := th
    type := "smoothstep"
    animated := true
    markerEnd := ⟨"arrowclosed", "#6366f1"⟩
    style := ⟨"#6366f1", 2⟩ }

/-- `sourceNode?.data.type === 'thankyou'`: true only when a source node
was found and its category is `thankyou`. -/
def isThankyouSource : Option FunnelNode → Bool
  | some n => n.data.type == .thankyou
  | none => false

/-- The edge-appending tail of `onConnect` (runs after the thank-you
check): builds the new edge from the non-null endpoints and inserts it
through `addEdge`.  When an endpoint is null, `addEdge`'s falsy-endpoint
guard means the edge list is left unchanged. -/
def connectEdge (c : Connection) (s : Snapshot) : Snapshot :=
  match c.source, c.target with
  | some src, some tgt =>
    { s with edges := addEdge (mkNewEdge src tgt c.sourceHandle c.targetHandle) s.edges }
  | _, _ => s

/-- `onConnect` from `funnelStore.ts`.  If the source node's category is
`thankyou` it returns without touching the state (hard rule).  The
sales-page fan-out check in the source only logs a console warning and
changes no state, so it has no footprint here.  Otherwise the new edge
is inserted via reactflow's `addEdge`. -/
def onConnect (c : Connection) (s : Snapshot) : Snapshot :=
  if isThankyouSource (s.nodes.find? fun n => c.source == some n.id) then s
  else connectEdge c s

/-! ### Validation -/

/-- Flattened per-element issue lists, in element order. -/
def concatMap {α β : Type} (f : α → List β) : List α → List β
  | [] => []
  | x :: xs => f x ++ concatMap f xs

/-- Message of the disconnected-node warning. -/
def disconnectedMsg (label : String) : String :=
  "\"" ++ label ++ "\" is disconnected"

/-- Message of the sales-page excess fan-out warning. -/
def multipleOutgoingMsg (label : String) : String :=
  "\"" ++ label ++ "\" has multiple outgoing connections (should have 1)"

/-- Message of the sales-page missing fan-out warning. -/
def noOutgoingMsg (label : String) : String :=
  "\"" ++ label ++ "\" has no outgoing connection"

/-- Message of the thank-you outgoing-edges error. -/
def thankyouOutgoingMsg (label : String) : String :=
  "\"" ++ label ++ "\" should not have outgoing connections"

/-- Message of the multiple-entry-points warning. -/
def entryPointsMsg (count : Nat) : String :=
  "Funnel has " ++ toDecimal count ++ " entry points (usually should be 1)"

/-- The excess fan-out warning pushed for a sales node. -/
def multipleOutgoingIssue (n : FunnelNode) : ValidationIssue :=
  ⟨"warning", multipleOutgoingMsg n.data.label, some n.id⟩

/-- `getValidationIssues` from `funnelStore.ts`: orphan warnings, then the
sales-page checks (excess fan-out, then missing fan-out, per node), then
the thank-you outgoing-edge errors, then the multiple-entry-points
warning. -/
def getValidationIssues (s : Snapshot) : List ValidationIssue :=
  let nodes := s.nodes
  let edges := s.edges
  let orphanIssues := concatMap (fun node =>
    let hasIncoming := edges.any fun e => e.target == node.id
    let hasOutgoing := edges.any fun e => e.source == node.id
    if !hasIncoming && !hasOutgoing && nodes.length > 1 then
      [⟨"warning", disconnectedMsg node.data.label, some node.id⟩]
    else []) nodes
  let salesIssues := concatMap (fun node =>
    let outgoing := edges.filter fun e => e.source == node.id
    (if outgoing.length > 1 then [multipleOutgoingIssue node] else []) ++
    (if outgoing.length == 0 && nodes.length > 1 then
      [⟨"warning", noOutgoingMsg node.data.label, some node.id⟩]
    else [])) (nodes.filter fun n => n.data.type == .sales)
  let thankyouIssues := concatMap (fun node =>
    let outgoing := edges.filter fun e => e.source == node.id
    if outgoing.length > 0 then
      [⟨"error", thankyouOutgoingMsg node.data.label, some node.id⟩]
    else []) (nodes.filter fun n => n.data.type == .thankyou)
  let entryPoints := nodes.filter fun node =>
    !(edges.any fun e => e.target == node.id) && node.data.type != .thankyou
  let entryIssues :=
    if entryPoints.length > 1 && nodes.length > 1 then
      [⟨"warning", entryPointsMsg entryPoints.length, none⟩]
    else []
  orphanIssues ++ salesIssues ++ thankyouIssues ++ entryIssues

/-! ### The JSON boundary

`exportJSON` stringifies the snapshot; `importJSON` parses its argument
and stores the parsed collections.  `JSON.parse (JSON.stringify v)` is
the identity on JSON-representable values, so both surfaces are modelled
at the level of the parsed `Json` value; a parse outcome is
`Option Json` with `none` for text the parser throws on. -/

/-- A JSON value. -/
inductive Json where
  | null
  | bool (b : Bool)
  | num (n : Int)
  | str (s : String)
  | arr (elems : List Json)
  | obj (fields : List (String × Json))

/-- JavaScript property read `v[k]` on a parsed value: only objects have
data properties; a duplicated key keeps the last occurrence, as
`JSON.parse` does. -/
def Json.getField : Json → String → Option Json
  | .obj fields, k => fields.foldl (fun acc f => if f.1 == k then some f.2 else acc) none
  | _, _ => none

/-- `Array.isArray`. -/
def Json.isArray : Json → Bool
  | .arr _ => true
  | _ => false

/-- JavaScript truthiness of a parsed value. -/
def Json.truthy : Json → Bool
  | .null => false
  | .bool b => b
  | .num n => n != 0
  | .str s => s != ""
  | .arr _ => true
  | .obj _ => true

/-- `Array.isArray(v[k])` for a parsed value `v`. -/
def Json.fieldIsArray (j : Json) (k : String) : Bool :=
  match j.getField k with
  | some v => v.isArray
  | none => false

/-- The elements of a parsed array (empty for non-arrays). -/
def Json.asArr : Option Json → List Json
  | some (.arr xs) => xs
  | _ => []

/-- JSON encoding of a position. -/
def encodePosition (p : Position) : Json :=
  .obj [("x", .num p.x), ("y", .num p.y)]

/-- JSON encoding of a node's `data` payload. -/
def encodeNodeData (d : NodeData) : Json :=
  .obj [("type", .str d.type.key), ("label", .str d.label),
        ("buttonLabel", .str d.buttonLabel)]

/-- JSON encoding of a node record. -/
def encodeNode (n : FunnelNode) : Json :=
  .obj [("id", .str n.id), ("type", .str n.type),
        ("position", encodePosition n.position), ("data", encodeNodeData n.data)]

/-- JSON encoding of a `string | null` handle. -/
def encodeOptStr : Option String → Json
  | none => .null
  | some s => .str s

/-- JSON encoding of an edge record. -/
def encodeEdge (e : FunnelEdge) : Json :=
  .obj [("id", .str e.id), ("source", .str e.source), ("target", .str e.target),
        ("sourceHandle", encodeOptStr e.sourceHandle),
        ("targetHandle", encodeOptStr e.targetHandle),
        ("type", .str e.type), ("animated", .bool e.animated),
        ("markerEnd", .obj [("type", .str e.markerEnd.type), ("color", .str e.markerEnd.color)]),
        ("style", .obj [("stroke", .str e.style.stroke),
                        ("strokeWidth", .num (Int.ofNat e.style.strokeWidth))])]

/-- JSON encoding of the counter table. -/
def encodeCounters (c : Counters) : Json :=
  .obj [("sales", .num (Int.ofNat c.sales)), ("order", .num (Int.ofNat c.order)),
        ("upsell", .num (Int.ofNat c.upsell)), ("downsell", .num (Int.ofNat c.downsell)),
        ("thankyou", .num (Int.ofNat c.thankyou))]

/-- `exportJSON` from `funnelStore.ts`, seen through the parser: the JSON
value of `JSON.stringify({ nodes, edges, nodeCounters })`. -/
def exportJSON (s : Snapshot) : Json :=
  .obj [("nodes", .arr (s.nodes.map encodeNode)),
        ("edges", .arr (s.edges.map encodeEdge)),
        ("nodeCounters", encodeCounters s.nodeCounters)]

/-- Inverse of `NodeType.key` (unknown strings read as `sales`; the
typed reading of an untyped parsed category). -/
def strToNodeType (s : String) : NodeType :=
  if s = "order" then .order
  else if s = "upsell" then .upsell
  else if s = "downsell" then .downsell
  else if s = "thankyou" then .thankyou
  else .sales

/-- Typed reading of a parsed position (defaults outside the snapshot
encoding). -/
def decodePosition : Json → Position
  | .obj [("x", .num x), ("y", .num y)] => ⟨x, y⟩
  | _ => ⟨0, 0⟩

/-- Typed reading of a parsed `data` payload. -/
def decodeNodeData : Json → NodeData
  | .obj [("type", .str t), ("label", .str l), ("buttonLabel", .str b)] =>
    ⟨strToNodeType t, l, b⟩
  | _ => ⟨.sales, "", ""⟩

/-- Typed reading of a parsed node record.  The JS store keeps the parsed
object as-is; this is its typed interpretation, a left inverse of
`encodeNode`. -/
def decodeNode : Json → FunnelNode
  | .obj [("id", .str i), ("type", .str t), ("position", p), ("data", d)] =>
    ⟨i, t, decodePosition p, decodeNodeData d⟩
  | _ => ⟨"", "funnelNode", ⟨0, 0⟩, ⟨.sales, "", ""⟩⟩

/-- Typed reading of a parsed handle. -/
def decodeOptStr : Json → Option String
  | .str s => some s
  | _ => none

/-- Typed reading of a parsed edge record, a left inverse of
`encodeEdge`. -/
def decodeEdge : Json → FunnelEdge
  | .obj [("id", .str i), ("source", .str s), ("target", .str t),
          ("sourceHandle", sh), ("targetHandle", th),
          ("type", .str ty), ("animated", .bool a),
          ("markerEnd", .obj [("type", .str mt), ("color", .str mc)]),
          ("style", .obj [("stroke", .str st), ("strokeWidth", .num sw)])] =>
    ⟨i, s, t, decodeOptStr sh, decodeOptStr th, ty, a, ⟨mt, mc⟩, ⟨st, sw.toNat⟩⟩
  | _ => ⟨"", "", "", none, none, "smoothstep", true, ⟨"arrowclosed", "#6366f1"⟩,
         ⟨"#6366f1", 2⟩⟩

/-- Typed reading of a parsed counter table, a left inverse of
`encodeCounters`. -/
def decodeCounters : Json → Counters
  | .obj [("sales", .num a), ("order", .num b), ("upsell", .num c),
          ("downsell", .num d), ("thankyou", .num e)] =>
    ⟨a.toNat, b.toNat, c.toNat, d.toNat, e.toNat⟩
  | _ => getInitialCounters

/-- What `importJSON` returns and does: its boolean result, the in-memory
snapshot afterwards, and whether it performed the synchronous
`saveToStorage()` write to the durable store. -/
structure ImportResult where
  ok : Bool
  snap : Snapshot
  wroteStorage : Bool
deriving DecidableEq, Repr

/-- `importJSON` from `funnelStore.ts`, over the parse outcome of its
text argument.  A parse throw (`none`), or `nodes` / `edges` fields that
are not both arrays, lands in the catch block: it returns `false` with
no state change and no durable write.  Otherwise the parsed collections
replace the snapshot (their typed reading here), `nodeCounters` falls
back to `getInitialCounters()` when falsy, and the result is persisted
at once. -/
def importJSON (parsed : Option Json) (s : Snapshot) : ImportResult :=
  match parsed with
  | none => ⟨false, s, false⟩
  | some j =>
    if j.fieldIsArray "nodes" && j.fieldIsArray "edges" then
      let counters :=
        match j.getField "nodeCounters" with
        | some cj => if cj.truthy then decodeCounters cj else getInitialCounters
        | none => getInitialCounters
      ⟨true,
       ⟨(Json.asArr (j.getField "nodes")).map decodeNode,
        (Json.asArr (j.getField "edges")).map decodeEdge,
        counters⟩,
       true⟩
    else ⟨false, s, false⟩

/-- Bundled rejection condition of `importJSON`: the text did not parse,
or the parsed value's `nodes` / `edges` fields are not both arrays. -/
def rejectsImport : Option Json → Bool
  | none => true
  | some j => !(j.fieldIsArray "nodes" && j.fieldIsArray "edges")

/-- A parsed import document holding the encodings of typed node and edge
lists, plus any further fields (e.g. a `nodeCounters` entry). -/
def importDoc (ns : List FunnelNode) (es : List FunnelEdge)
    (extra : List (String × Json)) : Json :=
  .obj ([("nodes", .arr (ns.map encodeNode)), ("edges", .arr (es.map encodeEdge))] ++ extra)

/-! ### Operation traces -/

/-- A session operation for the label/id-uniqueness claims: a `createNode`
call (with its clock value) or a `deleteNode` call. -/
inductive SessionOp where
  | add (type : NodeType) (position : Position) (now : Nat)
  | del (nodeId : String)

/-- The `(category, clock)` stamp of an add operation. -/
def SessionOp.stamp : SessionOp → Option (NodeType × Nat)
  | .add t _ now => some (t, now)
  | .del _ => none

/-- Run a list of session operations against a snapshot. -/
def runSession : List SessionOp → Snapshot → Snapshot
  | [], s => s
  | .add t p now :: ops, s => runSession ops (addNode t p now s)
  | .del x :: ops, s => runSession ops (deleteNode x s)

/-- Every node record created along a run, in creation order, whether or
not it is later deleted. -/
def generatedNodes : List SessionOp → Snapshot → List FunnelNode
  | [], _ => []
  | .add t p now :: ops, s =>
    newNodeFor t p now s.nodeCounters :: generatedNodes ops (addNode t p now s)
  | .del x :: ops, s => generatedNodes ops (deleteNode x s)

/-- Number of add operations of a given category in a trace. -/
def countAdds (c : NodeType) : List SessionOp → Nat
  | [] => 0
  | .add t _ _ :: ops => (if t = c then 1 else 0) + countAdds c ops
  | .del _ :: ops => countAdds c ops

/-- The labels generated for category `c` along a run. -/
def generatedLabels (c : NodeType) (ops : List SessionOp) (s : Snapshot) : List String :=
  ((generatedNodes ops s).filter fun n => n.data.type == c).map fun n => n.data.label

/-- A call to one of the five public mutating operations, with arbitrary
arguments. -/
inductive Act where
  | addNode (type : NodeType) (position : Position) (now : Nat)
  | deleteNode (nodeId : String)
  | deleteEdge (edgeId : String)
  | connect (c : Connection)
  | updateNodeLabel (nodeId : String) (label : String)

/-- Apply one public operation. -/
def applyAct : Act → Snapshot → Snapshot
  | .addNode t p now, s => addNode t p now s
  | .deleteNode x, s => deleteNode x s
  | .deleteEdge x, s => deleteEdge x s
  | .connect c, s => onConnect c s
  | .updateNodeLabel x l, s => updateNodeLabel x l s

/-- Run a list of public operations from a snapshot. -/
def runActs : List Act → Snapshot → Snapshot
  | [], s => s
  | a :: as, s => runActs as (applyAct a s)

/-- Referential integrity of the edge list: every edge's source and
target are ids of nodes currently present. -/
def EdgesWellFormed (s : Snapshot) : Prop :=
  ∀ e ∈ s.edges,
    (∃ n ∈ s.nodes, n.id = e.source) ∧ (∃ n ∈ s.nodes, n.id = e.target)

/-- Snapshots reachable from the empty snapshot by the five public
operations, with `connect` restricted to source and target ids of nodes
present at call time — the only way the canvas ever invokes it, since a
connection drag starts and ends on handles of rendered nodes. -/
inductive ReachableG : Snapshot → Prop where
  | empty : ReachableG emptySnapshot
  | addNode (t : NodeType) (p : Position) (now : Nat) {s : Snapshot} :
      ReachableG s → ReachableG (addNode t p now s)
  | deleteNode (x : String) {s : Snapshot} :
      ReachableG s → ReachableG (deleteNode x s)
  | deleteEdge (x : String) {s : Snapshot} :
      ReachableG s → ReachableG (deleteEdge x s)
  | updateNodeLabel (x l : String) {s : Snapshot} :
      ReachableG s → ReachableG (updateNodeLabel x l s)
  | connect (c : Connection) {s : Snapshot} :
      ReachableG s →
      (∃ n ∈ s.nodes, c.source = some n.id) →
      (∃ n ∈ s.nodes, c.target = some n.id) →
      ReachableG (onConnect c s)

/-! ### Concrete test data -/

/-- A thank-you node with id `ty1`. -/
def tyNode : FunnelNode :=
  ⟨"ty1", "funnelNode", ⟨0, 0⟩, ⟨.thankyou, "Thank You", "Continue"⟩⟩

/-- A snapshot holding only `tyNode`. -/
def snapTY : Snapshot := ⟨[tyNode], [], getInitialCounters⟩

/-- A connection dragged out of the thank-you node. -/
def connTY : Connection := ⟨some "ty1", some "x", none, none⟩

/-- A sales node with id `e1`. -/
def salesE : FunnelNode :=
  ⟨"e1", "funnelNode", ⟨0, 0⟩, ⟨.sales, "Sales Page", "Buy Now"⟩⟩

/-- A thank-you node with id `c1`. -/
def thankC : FunnelNode :=
  ⟨"c1", "funnelNode", ⟨0, 200⟩, ⟨.thankyou, "Thank You", "Continue"⟩⟩

/-- The two-node snapshot of the duplicate-connect scenario. -/
def snapEC : Snapshot := ⟨[salesE, thankC], [], getInitialCounters⟩

/-- The connection from `e1` to `c1`. -/
def connEC : Connection := ⟨some "e1", some "c1", none, none⟩

/-- A sales node with id `a`. -/
def salesA : FunnelNode :=
  ⟨"a", "funnelNode", ⟨0, 0⟩, ⟨.sales, "Sales Page", "Buy Now"⟩⟩

/-- An order node with id `x`. -/
def orderX : FunnelNode :=
  ⟨"x", "funnelNode", ⟨0, 200⟩, ⟨.order, "Order Page", "Complete Order"⟩⟩

/-- An order node with id `b`. -/
def orderB : FunnelNode :=
  ⟨"b", "funnelNode", ⟨200, 200⟩, ⟨.order, "Order Page", "Complete Order"⟩⟩

/-- An existing edge from `a` to `x`. -/
def edgeAX : FunnelEdge :=
  ⟨"ea-x", "a", "x", none, none, "smoothstep", true, ⟨"arrowclosed", "#6366f1"⟩,
   ⟨"#6366f1", 2⟩⟩

/-- A snapshot where sales node `a` already has one outgoing edge. -/
def snapFan : Snapshot := ⟨[salesA, orderX, orderB], [edgeAX], getInitialCounters⟩

/-- The connection from `a` to `b`. -/
def connAB : Connection := ⟨some "a", some "b", none, none⟩

/-- The connection from `a` to `x`, duplicating `edgeAX`. -/
def connAX : Connection := ⟨some "a", some "x", none, none⟩

/-- A snapshot holding only the sales node `a`. -/
def snapA : Snapshot := ⟨[salesA], [], getInitialCounters⟩

/-- Two `createNode('sales')` calls in the same millisecond. -/
def opsClash : List SessionOp :=
  [.add .sales ⟨0, 0⟩ 0, .add .sales ⟨0, 0⟩ 0]

/-- A session with distinct stamps, a deletion interleaved. -/
def opsMixed : List SessionOp :=
  [.add .upsell ⟨0, 0⟩ 5, .del "q", .add .upsell ⟨0, 0⟩ 6, .add .downsell ⟨1, 1⟩ 7]

/-- A parsed value whose `nodes` field is not an array. -/
def jBad : Json := .obj [("nodes", .num 1)]

/-- A parsed import document with empty collections and a null
`nodeCounters`. -/
def jDoc : Json := .obj [("nodes", .arr []), ("edges", .arr []), ("nodeCounters", .null)]

/-- The connection the canvas issues between the two generated nodes of
the reachability scenario. -/
def connGen : Connection :=
  ⟨some (idString .sales 1), some (idString .thankyou 2), none, none⟩

/-- The reachability scenario: create a sales node and a thank-you node,
then connect them. -/
def snapGen : Snapshot :=
  onConnect connGen (addNode .thankyou ⟨0, 200⟩ 2 (addNode .sales ⟨0, 0⟩ 1 emptySnapshot))

/-- The id generated from an add operation's stamp. -/
def idOfStamp (p : NodeType × Nat) : String := idString p.1 p.2

/-- The label sequence a repeatable category is expected to produce over
a whole session: ordinals `1, 2, …, n` appended to the registry label. -/
def expectedLabels (c : NodeType) (n : Nat) : List String :=
  (List.range n).map fun i => (NODE_CONFIGS c).label ++ " " ++ toDecimal (i + 1)

/-! # Helper lemmas -/

theorem all_filter {α : Type} (p : α → Bool) (xs : List α) :
    (xs.filter p).all p = true := by
  simp only [List.all_eq_true]
  intro a ha
  exact (List.mem_filter.mp ha).2

theorem mem_concatMap {α β : Type} (f : α → List β) {b : β} {a : α} {l : List α}
    (ha : a ∈ l) (hb : b ∈ f a) : b ∈ concatMap f l := by
  induction l with
  | nil => cases ha
  | cons x xs ih =>
    simp only [concatMap]
    rcases List.mem_cons.mp ha with h | h
    · subst h; exact List.mem_append_left _ hb
    · exact List.mem_append_right _ (ih h)

theorem map_map_id {α β : Type} (f : α → β) (g : β → α) (h : ∀ a, g (f a) = a) :
    ∀ l : List α, (l.map f).map g = l
  | [] => rfl
  | x :: xs => by simp only [List.map_cons, h x, map_map_id f g h xs]

theorem Counters.get_set (c : Counters) (t t' : NodeType) (v : Nat) :
    (c.set t v).get t' = if t' = t then v else c.get t' := by
  cases t <;> cases t' <;> simp [Counters.get, Counters.set]

theorem connectEdge_nodes (c : Connection) (s : Snapshot) :
    (connectEdge c s).nodes = s.nodes := by
  unfold connectEdge
  cases c.source <;> cases c.target <;> rfl

theorem onConnect_nodes (c : Connection) (s : Snapshot) :
    (onConnect c s).nodes = s.nodes := by
  unfold onConnect
  by_cases h : isThankyouSource (s.nodes.find? fun n => c.source == some n.id) = true
  · simp [h]
  · simp [h, connectEdge_nodes]

theorem connectionExists_append_self (e : FunnelEdge) (es : List FunnelEdge) :
    connectionExists e (es ++ [e]) = true := by
  unfold connectionExists
  simp [List.any_append, handlesMatch]

theorem addEdge_self_idem (e : FunnelEdge) (es : List FunnelEdge) :
    addEdge e (addEdge e es) = addEdge e es := by
  unfold addEdge
  by_cases h1 : (strFalsy (some e.source) || strFalsy (some e.target)) = true
  · simp [h1]
  · by_cases h2 : connectionExists e es = true
    · simp [h1, h2]
    · simp [h1, h2, connectionExists_append_self]

theorem mem_addEdge {e e' : FunnelEdge} {es : List FunnelEdge}
    (h : e' ∈ addEdge e es) : e' ∈ es ∨ e' = e := by
  unfold addEdge at h
  split at h
  · exact Or.inl h
  · split at h
    · exact Or.inl h
    · rcases List.mem_append.mp h with h1 | h1
      · exact Or.inl h1
      · exact Or.inr (List.mem_singleton.mp h1)

theorem digitChar_inj : ∀ a < 10, ∀ b < 10, Nat.digitChar a = Nat.digitChar b → a = b := by
  decide

theorem decimalRevCore_fuel : ∀ f f' n : Nat, n ≤ f → n ≤ f' →
    decimalRevCore f n = decimalRevCore f' n := by
  intro f
  induction f with
  | zero =>
    intro f' n hf hf'
    have hn0 : n = 0 := Nat.le_zero.mp hf
    subst hn0
    cases f' <;> simp [decimalRevCore]
  | succ g ih =>
    intro f' n hf hf'
    by_cases hn : n = 0
    · subst hn
      cases f' <;> simp [decimalRevCore]
    · cases f' with
      | zero => omega
      | succ g' =>
        have hdiv : n / 10 < n := Nat.div_lt_self (Nat.pos_of_ne_zero hn) (by decide)
        simp only [decimalRevCore, if_neg hn]
        rw [ih g' (n / 10) (by omega) (by omega)]

theorem decimalRev_eq (n : Nat) :
    decimalRev n = if n = 0 then [] else Nat.digitChar (n % 10) :: decimalRev (n / 10) := by
  cases n with
  | zero => rfl
  | succ k =>
    have hne : k + 1 ≠ 0 := Nat.succ_ne_zero k
    rw [if_neg hne]
    show decimalRevCore (k + 1) (k + 1) = _
    simp only [decimalRevCore, if_neg hne]
    have hd : (k + 1) / 10 < k + 1 := Nat.div_lt_self (Nat.succ_pos k) (by decide)
    exact congrArg _ (decimalRevCore_fuel k ((k + 1) / 10) ((k + 1) / 10)
      (by omega) (Nat.le_refl _))

theorem decimalRev_eq_nil {n : Nat} (h : decimalRev n = []) : n = 0 := by
  by_contra hn
  rw [decimalRev_eq, if_neg hn] at h
  cases h

theorem decimalRev_zero : decimalRev 0 = [] := rfl

theorem decimalRev_inj : ∀ m n : Nat, decimalRev m = decimalRev n → m = n := by
  intro m
  induction m using Nat.strong_induction_on with
  | _ m ih =>
    intro n h
    by_cases hm : m = 0
    · subst hm
      rw [decimalRev_zero] at h
      exact (decimalRev_eq_nil h.symm).symm
    · by_cases hn : n = 0
      · subst hn
        rw [decimalRev_zero] at h
        exact absurd (decimalRev_eq_nil h) hm
      · rw [decimalRev_eq m, decimalRev_eq n, if_neg hm, if_neg hn] at h
        have h1 := List.head_eq_of_cons_eq h
        have h2 := List.tail_eq_of_cons_eq h
        have hmod : m % 10 = n % 10 :=
          digitChar_inj _ (Nat.mod_lt _ (by decide)) _ (Nat.mod_lt _ (by decide)) h1
        have hdiv : m / 10 = n / 10 :=
          ih (m / 10) (Nat.div_lt_self (Nat.pos_of_ne_zero hm) (by decide)) _ h2
        omega

theorem toDecimal_inj : ∀ m n : Nat, toDecimal m = toDecimal n → m = n := by
  have key : ∀ n : Nat, n ≠ 0 → toDecimal n ≠ "0" := by
    intro n hn h
    have hd : (decimalRev n).reverse = ['0'] := by
      have := congrArg String.data h
      rw [toDecimal, if_neg hn] at this
      simpa using this
    have hrev : decimalRev n = ['0'] := by
      have := congrArg List.reverse hd
      simpa using this
    rw [decimalRev_eq, if_neg hn] at hrev
    have h1 := List.head_eq_of_cons_eq hrev
    have h2 := List.tail_eq_of_cons_eq hrev
    have : n % 10 = 0 := digitChar_inj _ (Nat.mod_lt _ (by decide)) 0 (by decide) h1
    have : n / 10 = 0 := decimalRev_eq_nil h2
    omega
  have tdz : toDecimal 0 = "0" := rfl
  intro m n h
  by_cases hm : m = 0
  · by_cases hn : n = 0
    · omega
    · subst hm
      rw [tdz] at h
      exact absurd h.symm (key n hn)
  · by_cases hn : n = 0
    · subst hn
      rw [tdz] at h
      exact absurd h (key m hm)
    · rw [toDecimal, toDecimal, if_neg hm, if_neg hn] at h
      have hd := congrArg String.data h
      simp only [String.data] at hd
      exact decimalRev_inj _ _ (List.reverse_injective hd)

theorem append_sep_inj {sep : Char} :
    ∀ (l₁ l₂ r₁ r₂ : List Char), sep ∉ l₁ → sep ∉ l₂ →
      l₁ ++ sep :: r₁ = l₂ ++ sep :: r₂ → l₁ = l₂ ∧ r₁ = r₂ := by
  intro l₁
  induction l₁ with
  | nil =>
    intro l₂ r₁ r₂ h1 h2 h
    cases l₂ with
    | nil => simpa using h
    | cons b t =>
      exfalso
      have hb := List.head_eq_of_cons_eq h
      exact h2 (hb ▸ List.mem_cons_self b t)
  | cons a t ih =>
    intro l₂ r₁ r₂ h1 h2 h
    cases l₂ with
    | nil =>
      exfalso
      have ha := List.head_eq_of_cons_eq h
      exact h1 (ha ▸ List.mem_cons_self a t)
    | cons b t₂ =>
      have hab := List.head_eq_of_cons_eq h
      have ht := List.tail_eq_of_cons_eq h
      have hrec := ih t₂ r₁ r₂ (fun hm => h1 (List.mem_cons_of_mem _ hm))
        (fun hm => h2 (List.mem_cons_of_mem _ hm)) ht
      exact ⟨by rw [hab, hrec.1], hrec.2⟩

theorem key_inj : ∀ t₁ t₂ : NodeType, t₁.key = t₂.key → t₁ = t₂ := by decide

theorem dash_not_mem_key : ∀ t : NodeType, '-' ∉ (NodeType.key t).data := by decide

theorem idString_inj : ∀ t₁ n₁ t₂ n₂, idString t₁ n₁ = idString t₂ n₂ →
    t₁ = t₂ ∧ n₁ = n₂ := by
  intro t₁ n₁ t₂ n₂ h
  have hd := congrArg String.data h
  simp only [idString, String.data_append] at hd
  rw [List.append_assoc, List.append_assoc] at hd
  have hd' : (NodeType.key t₁).data ++ ('-' :: (toDecimal n₁).data)
      = (NodeType.key t₂).data ++ ('-' :: (toDecimal n₂).data) := by
    simpa using hd
  have hp := append_sep_inj _ _ _ _ (dash_not_mem_key t₁) (dash_not_mem_key t₂) hd'
  exact ⟨key_inj _ _ (String.ext hp.1), toDecimal_inj _ _ (String.ext hp.2)⟩

theorem idOfStamp_inj : Function.Injective idOfStamp := by
  intro p q h
  obtain ⟨h1, h2⟩ := idString_inj p.1 p.2 q.1 q.2 h
  exact Prod.ext h1 h2

theorem string_append_left_cancel {a x y : String} (h : a ++ x = a ++ y) : x = y := by
  have hd := congrArg String.data h
  simp only [String.data_append] at hd
  exact String.ext (List.append_cancel_left hd)

theorem generatedNodes_ids (ops : List SessionOp) :
    ∀ s : Snapshot, (generatedNodes ops s).map (fun n => n.id)
      = (ops.filterMap SessionOp.stamp).map idOfStamp := by
  induction ops with
  | nil => intro s; rfl
  | cons op tail ih =>
    intro s
    cases op with
    | add t p now =>
      simp only [generatedNodes, List.map_cons, List.filterMap_cons, SessionOp.stamp, ih]
      rfl
    | del x =>
      simp only [generatedNodes, List.filterMap_cons, SessionOp.stamp, ih]

theorem newNodeFor_type (t : NodeType) (p : Position) (now : Nat) (cs : Counters) :
    (newNodeFor t p now cs).data.type = t := rfl

theorem newNodeFor_label_repeatable (c : NodeType) (hc : c = .upsell ∨ c = .downsell)
    (p : Position) (now : Nat) (cs : Counters) :
    (newNodeFor c p now cs).data.label
      = (NODE_CONFIGS c).label ++ " " ++ toDecimal (cs.get c + 1) := by
  rcases hc with rfl | rfl <;> rfl

theorem generatedLabels_eq (c : NodeType) (hc : c = .upsell ∨ c = .downsell) :
    ∀ (ops : List SessionOp) (s : Snapshot),
      generatedLabels c ops s
        = (List.range (countAdds c ops)).map
            (fun i => (NODE_CONFIGS c).label ++ " " ++ toDecimal (s.nodeCounters.get c + i + 1)) := by
  intro ops
  induction ops with
  | nil => intro s; rfl
  | cons op tail ih =>
    intro s
    cases op with
    | del x =>
      simp only [generatedLabels, generatedNodes, countAdds] at ih ⊢
      exact ih (deleteNode x s)
    | add t p now =>
      by_cases hty : t = c
      · subst hty
        simp only [generatedLabels, generatedNodes, countAdds, if_pos rfl,
          List.filter_cons, newNodeFor_type, beq_self_eq_true, if_true, List.map_cons]
        rw [newNodeFor_label_repeatable t hc, Nat.add_comm 1 (countAdds t tail),
          List.range_succ_eq_map, List.map_cons, List.map_map]
        have htail := ih (addNode t p now s)
        simp only [generatedLabels] at htail
        rw [htail]
        have hcnt : (addNode t p now s).nodeCounters.get t = s.nodeCounters.get t + 1 := by
          simp [addNode, Counters.get_set]
        rw [hcnt]
        refine List.cons_eq_cons.mpr ⟨rfl, ?_⟩
        apply List.map_congr_left
        intro i hi
        simp only [Function.comp]
        congr 2
        omega
      · have hne : ((newNodeFor t p now s.nodeCounters).data.type == c) = false := by
          simp [newNodeFor_type, hty]
        simp only [generatedLabels, generatedNodes, countAdds, if_neg hty,
          List.filter_cons, hne, Bool.false_eq_true, if_false, Nat.zero_add]
        have htail := ih (addNode t p now s)
        simp only [generatedLabels] at htail
        rw [htail]
        have hcnt : (addNode t p now s).nodeCounters.get c = s.nodeCounters.get c := by
          simp only [addNode, Counters.get_set]
          rw [if_neg (fun h => hty h.symm)]
        rw [hcnt]

/-! # Claims -/

/-- C1: when the source node of a `connect` call is present and its
category is `thankyou`, `onConnect` adds no edge and returns the
snapshot — nodes, edges and counters — unchanged, for any target. -/
theorem onConnect_thankyou_source_noop (c : Connection) (s : Snapshot) (n : FunnelNode)
    (hfind : s.nodes.find? (fun m => c.source == some m.id) = some n)
    (hty : n.data.type = .thankyou) :
    onConnect c s = s := by
  unfold onConnect
  rw [hfind]
  simp [isThankyouSource, hty]

/-- Witness for C1: connecting out of the thank-you node `ty1` leaves the
one-node snapshot untouched. -/
theorem onConnect_thankyou_source_noop_w :
    snapTY.nodes.find? (fun m => connTY.source == some m.id) = some tyNode ∧
    tyNode.data.type = .thankyou ∧
    onConnect connTY snapTY = snapTY :=
  ⟨by decide, by decide,
   onConnect_thankyou_source_noop connTY snapTY tyNode (by decide) (by decide)⟩

/-- C2 counterexample: after a successful `connect(E, C)` (edge count 1),
repeating the identical call leaves the edge count at 1, not 2 — the
underlying reactflow `addEdge` drops a duplicate of an existing
connection. -/
theorem connect_duplicate_pair_counter :
    (onConnect connEC snapEC).edges.length = 1 ∧
    (onConnect connEC (onConnect connEC snapEC)).edges.length = 1 ∧
    ¬ (onConnect connEC (onConnect connEC snapEC)).edges.length = 2 := by
  decide

/-- C2 amended: repeating a `connect` call with the same endpoints and
handles is accepted as a call but inserts nothing: `onConnect` is
idempotent, so the snapshot — and with it the edge count — is exactly
that of the first call. -/
theorem onConnect_idem (c : Connection) (s : Snapshot) :
    onConnect c (onConnect c s) = onConnect c s := by
  rw [onConnect, onConnect_nodes]
  by_cases h : isThankyouSource (s.nodes.find? fun n => c.source == some n.id) = true
  · rw [if_pos h]
  · rw [if_neg h, onConnect, if_neg h]
    cases hs : c.source with
    | none => simp [connectEdge, hs]
    | some src =>
      cases ht : c.target with
      | none => simp [connectEdge, hs, ht]
      | some tgt => simp [connectEdge, hs, ht, addEdge_self_idem]

/-- C4 counterexample: `updateNodeLabel` itself applies no trim guard —
relabelling node `a` with whitespace changes the snapshot, so the
operation is not a no-op on labels that are empty after trimming. -/
theorem updateNodeLabel_blank_mutates :
    updateNodeLabel "a" "   " snapA ≠ snapA := by
  decide

/-- C4 amended: `updateNodeLabel` replaces the label of every node with
the given id unconditionally (even by a blank string) and is a no-op
when the id is absent; the empty-after-trimming guard lives in the UI
caller `handleBlur`, which leaves the store untouched when the edited
text trims to the empty string. -/
theorem updateNodeLabel_semantics :
    (∀ (s : Snapshot) (x l : String),
      (∀ n ∈ s.nodes, n.id ≠ x) → updateNodeLabel x l s = s) ∧
    (∀ (s : Snapshot) (x l : String) (n : FunnelNode),
      s.nodes.find? (fun m => m.id == x) = some n →
      (updateNodeLabel x l s).nodes.find? (fun m => m.id == x) = some (relabel n l)) ∧
    (∀ (id dl el : String) (s : Snapshot),
      jsTrim el = "" → handleBlur id dl el s = s) := by
  refine ⟨?_, ?_, ?_⟩
  · intro s x l h
    have aux : ∀ L : List FunnelNode, (∀ n ∈ L, n.id ≠ x) →
        L.map (fun n => if n.id = x then relabel n l else n) = L := by
      intro L
      induction L with
      | nil => intro _; rfl
      | cons a t ih =>
        intro hL
        simp only [List.map_cons]
        rw [if_neg (hL a (List.mem_cons_self a t)),
          ih (fun n hn => hL n (List.mem_cons_of_mem _ hn))]
    unfold updateNodeLabel
    rw [aux s.nodes h]
  · intro s x l n hfind
    have hpred : (fun m : FunnelNode =>
        (if m.id = x then relabel m l else m).id == x) = fun m => m.id == x := by
      funext m
      by_cases hm : m.id = x
      · rw [if_pos hm]
        rfl
      · rw [if_neg hm]
    have hid : n.id = x := by
      have := List.find?_some hfind
      simpa using this
    unfold updateNodeLabel
    rw [List.find?_map]
    simp only [Function.comp_def, hpred, hfind, Option.map_some, Option.map_some',
      if_pos hid]
  · intro id dl el s htrim
    unfold handleBlur
    rw [if_neg (fun hcond => hcond.1 htrim)]

/-- Witness for C4's amended theorem at concrete inputs: an absent id is
a no-op, a present id `a` is relabelled, and a whitespace-only edit is
swallowed by `handleBlur`. -/
theorem updateNodeLabel_semantics_w :
    updateNodeLabel "zz" "L" snapA = snapA ∧
    (updateNodeLabel "a" "New" snapA).nodes.find? (fun m => m.id == "a")
      = some (relabel salesA "New") ∧
    handleBlur "a" "Sales Page" "  " snapA = snapA :=
  ⟨updateNodeLabel_semantics.1 snapA "zz" "L" (by decide),
   updateNodeLabel_semantics.2.1 snapA "a" "New" salesA (by decide),
   updateNodeLabel_semantics.2.2 "a" "Sales Page" "  " snapA (by decide)⟩

/-- C5: after `deleteNode(nodeId)`, the node with that id is absent and
no remaining edge has it as source or target — the cascade removes every
touching edge in the same operation. -/
theorem deleteNode_cascades (s : Snapshot) (x : String) :
    ((deleteNode x s).nodes.all fun n => n.id != x) = true ∧
    ((deleteNode x s).edges.all fun e => e.source != x && e.target != x) = true :=
  ⟨all_filter _ _, all_filter _ _⟩

/-- C6: when the import text does not parse, or parses to a value whose
`nodes` or `edges` fields are not both arrays, `importJSON` returns
`false`, leaves the snapshot unchanged, and performs no durable write. -/
theorem importJSON_rejects (p : Option Json) (s : Snapshot)
    (h : rejectsImport p = true) :
    importJSON p s = ⟨false, s, false⟩ := by
  cases p with
  | none => rfl
  | some j =>
    simp only [rejectsImport, Bool.not_eq_true'] at h
    simp [importJSON, h]

/-- Witness for C6: a parsed object whose `nodes` field is the number 1
is rejected with the empty snapshot left as it was. -/
theorem importJSON_rejects_w :
    rejectsImport (some jBad) = true ∧
    importJSON (some jBad) emptySnapshot = ⟨false, emptySnapshot, false⟩ :=
  ⟨by decide, importJSON_rejects (some jBad) emptySnapshot (by decide)⟩

theorem strToNodeType_key : ∀ t : NodeType, strToNodeType t.key = t := by decide

theorem decodePosition_encode (p : Position) :
    decodePosition (encodePosition p) = p := by
  cases p
  rfl

theorem decodeNodeData_encode (d : NodeData) :
    decodeNodeData (encodeNodeData d) = d := by
  cases d
  simp [encodeNodeData, decodeNodeData, strToNodeType_key]

theorem decodeNode_encode (n : FunnelNode) : decodeNode (encodeNode n) = n := by
  cases n
  simp [encodeNode, decodeNode, decodePosition_encode, decodeNodeData_encode]

theorem decodeOptStr_encode (o : Option String) :
    decodeOptStr (encodeOptStr o) = o := by
  cases o <;> rfl

theorem decodeEdge_encode (e : FunnelEdge) : decodeEdge (encodeEdge e) = e := by
  obtain ⟨i, src, tgt, sh, th, ty, an, me, st⟩ := e
  cases sh <;> cases th <;> rfl

theorem decodeCounters_encode (c : Counters) :
    decodeCounters (encodeCounters c) = c := by
  cases c
  rfl

/-- C7: exporting any snapshot and importing the result succeeds and
reproduces the snapshot exactly — nodes, edges, and counters — whatever
snapshot the import started from. -/
theorem export_import_roundtrip (s s0 : Snapshot) :
    importJSON (some (exportJSON s)) s0 = ⟨true, s, true⟩ := by
  have h1 : (exportJSON s).fieldIsArray "nodes" = true := rfl
  have h2 : (exportJSON s).fieldIsArray "edges" = true := rfl
  have hn : Json.asArr ((exportJSON s).getField "nodes") = s.nodes.map encodeNode := rfl
  have he : Json.asArr ((exportJSON s).getField "edges") = s.edges.map encodeEdge := rfl
  have hc : (exportJSON s).getField "nodeCounters"
      = some (encodeCounters s.nodeCounters) := rfl
  have ht : (encodeCounters s.nodeCounters).truthy = true := rfl
  simp only [importJSON, h1, h2, hn, he, hc, ht, Bool.and_self, if_true,
    decodeCounters_encode,
    map_map_id encodeNode decodeNode decodeNode_encode,
    map_map_id encodeEdge decodeEdge decodeEdge_encode]

/-- C10: an import document whose `nodes` and `edges` fields are arrays
but whose `nodeCounters` field is missing or null succeeds, leaves the
`ok`/persist flags set, resets every counter to zero, and (for arrays of
node/edge records) replaces the collections with the parsed arrays. -/
theorem importJSON_defaults_counters :
    (∀ (j : Json) (s : Snapshot),
      j.fieldIsArray "nodes" = true → j.fieldIsArray "edges" = true →
      (j.getField "nodeCounters" = none ∨ j.getField "nodeCounters" = some Json.null) →
      (importJSON (some j) s).ok = true ∧
      (importJSON (some j) s).wroteStorage = true ∧
      (importJSON (some j) s).snap.nodeCounters = getInitialCounters) ∧
    (∀ (ns : List FunnelNode) (es : List FunnelEdge) (s : Snapshot),
      importJSON (some (importDoc ns es [])) s
        = ⟨true, ⟨ns, es, getInitialCounters⟩, true⟩ ∧
      importJSON (some (importDoc ns es [("nodeCounters", Json.null)])) s
        = ⟨true, ⟨ns, es, getInitialCounters⟩, true⟩) := by
  constructor
  · intro j s h1 h2 hc
    simp only [importJSON, h1, h2, Bool.and_self, if_true]
    rcases hc with hc | hc <;> simp [hc, Json.truthy]
  · intro ns es s
    constructor
    · have h1 : (importDoc ns es []).fieldIsArray "nodes" = true := rfl
      have h2 : (importDoc ns es []).fieldIsArray "edges" = true := rfl
      have hn : Json.asArr ((importDoc ns es []).getField "nodes")
          = ns.map encodeNode := rfl
      have he : Json.asArr ((importDoc ns es []).getField "edges")
          = es.map encodeEdge := rfl
      have hc : (importDoc ns es []).getField "nodeCounters" = none := rfl
      simp only [importJSON, h1, h2, hn, he, hc, Bool.and_self, if_true,
        map_map_id encodeNode decodeNode decodeNode_encode,
        map_map_id encodeEdge decodeEdge decodeEdge_encode]
    · have h1 : (importDoc ns es [("nodeCounters", Json.null)]).fieldIsArray "nodes"
          = true := rfl
      have h2 : (importDoc ns es [("nodeCounters", Json.null)]).fieldIsArray "edges"
          = true := rfl
      have hn : Json.asArr ((importDoc ns es [("nodeCounters", Json.null)]).getField "nodes")
          = ns.map encodeNode := rfl
      have he : Json.asArr ((importDoc ns es [("nodeCounters", Json.null)]).getField "edges")
          = es.map encodeEdge := rfl
      have hc : (importDoc ns es [("nodeCounters", Json.null)]).getField "nodeCounters"
          = some Json.null := rfl
      simp only [importJSON, h1, h2, hn, he, hc, Json.truthy, Bool.and_self, if_true,
        Bool.false_eq_true, if_false,
        map_map_id encodeNode decodeNode decodeNode_encode,
        map_map_id encodeEdge decodeEdge decodeEdge_encode]

/-- Witness for C10: importing the concrete document with empty arrays
and a null `nodeCounters` succeeds with all counters zero. -/
theorem importJSON_defaults_counters_w :
    (importJSON (some jDoc) emptySnapshot).ok = true ∧
    (importJSON (some jDoc) emptySnapshot).snap.nodeCounters = getInitialCounters :=
  ⟨(importJSON_defaults_counters.1 jDoc emptySnapshot rfl rfl (Or.inr rfl)).1,
   (importJSON_defaults_counters.1 jDoc emptySnapshot rfl rfl (Or.inr rfl)).2.2⟩

/-- C3 counterexample: two `createNode('sales')` calls in the same
millisecond both generate the id `sales-0`, so generated ids are not
pairwise distinct for every call sequence. -/
theorem addNode_same_stamp_id_clash :
    (runSession opsClash emptySnapshot).nodes.map (fun n => n.id)
      = [idString .sales 0, idString .sales 0] ∧
    ¬ ((runSession opsClash emptySnapshot).nodes.map fun n => n.id).Nodup := by
  have hids : (runSession opsClash emptySnapshot).nodes.map (fun n => n.id)
      = [idString .sales 0, idString .sales 0] := rfl
  refine ⟨hids, ?_⟩
  rw [hids]
  simp

/-- C3 amended: provided no two `createNode` calls share both category
and millisecond timestamp, all generated ids are pairwise distinct; and
unconditionally, the labels generated for each repeatable category
(`upsell`, `downsell`) are exactly `"<Label> 1", "<Label> 2", …` in
order — strictly increasing ordinals, hence pairwise distinct — with
interleaved deletions never reusing an ordinal. -/
theorem session_ids_labels_unique (ops : List SessionOp) :
    ((ops.filterMap SessionOp.stamp).Nodup →
      ((generatedNodes ops emptySnapshot).map fun n => n.id).Nodup) ∧
    generatedLabels .upsell ops emptySnapshot
      = expectedLabels .upsell (countAdds .upsell ops) ∧
    generatedLabels .downsell ops emptySnapshot
      = expectedLabels .downsell (countAdds .downsell ops) ∧
    (generatedLabels .upsell ops emptySnapshot).Nodup ∧
    (generatedLabels .downsell ops emptySnapshot).Nodup := by
  have hz : ∀ c : NodeType, emptySnapshot.nodeCounters.get c = 0 := by
    intro c
    cases c <;> rfl
  have hlab : ∀ c : NodeType, c = .upsell ∨ c = .downsell →
      generatedLabels c ops emptySnapshot = expectedLabels c (countAdds c ops) := by
    intro c hc
    rw [generatedLabels_eq c hc ops emptySnapshot]
    unfold expectedLabels
    apply List.map_congr_left
    intro i hi
    rw [hz c, Nat.zero_add]
  have hinj : ∀ c : NodeType, Function.Injective
      (fun i => (NODE_CONFIGS c).label ++ " " ++ toDecimal (i + 1)) := by
    intro c i j hij
    have := toDecimal_inj _ _ (string_append_left_cancel hij)
    omega
  have hnodup : ∀ c : NodeType, (expectedLabels c (countAdds c ops)).Nodup := by
    intro c
    exact (List.nodup_range _).map (hinj c)
  refine ⟨?_, hlab .upsell (Or.inl rfl), hlab .downsell (Or.inr rfl), ?_, ?_⟩
  · intro h
    rw [generatedNodes_ids ops emptySnapshot]
    exact h.map idOfStamp_inj
  · rw [hlab .upsell (Or.inl rfl)]
    exact hnodup .upsell
  · rw [hlab .downsell (Or.inr rfl)]
    exact hnodup .downsell

/-- Witness for C3's amended theorem: a session with distinct stamps and
an interleaved deletion has pairwise-distinct generated ids; and even
the stamp-clashing session produces its labels unconditionally. -/
theorem session_ids_labels_unique_w :
    (opsMixed.filterMap SessionOp.stamp).Nodup ∧
    ((generatedNodes opsMixed emptySnapshot).map fun n => n.id).Nodup ∧
    generatedLabels .upsell opsClash emptySnapshot
      = expectedLabels .upsell (countAdds .upsell opsClash) :=
  ⟨by decide, (session_ids_labels_unique opsMixed).1 (by decide),
   (session_ids_labels_unique opsClash).2.1⟩

/-- C8 counterexample: sales node `a` already has one outgoing edge to
`x`; repeating `connect(a, x)` is dropped as a duplicate — the edge
count stays 1 and no excess fan-out warning for `a` is reported — so the
claim fails for targets that duplicate an existing connection. -/
theorem connect_sales_duplicate_counter :
    salesA ∈ snapFan.nodes ∧ salesA.data.type = .sales ∧
    (snapFan.edges.filter fun e => e.source == salesA.id).length = 1 ∧
    (onConnect connAX snapFan).edges.length = 1 ∧
    multipleOutgoingIssue salesA ∉ getValidationIssues (onConnect connAX snapFan) := by
  decide

/-- C8 amended: if the source node of a `connect` call is present with
category `sales` and at least one outgoing edge, and the proposed
connection does not duplicate an existing edge (same source, target and
handles) and has nonempty endpoint ids, then the new edge is appended
(edge count grows by one) and a subsequent `getValidationIssues` reports
the multiple-outgoing-connections warning for that node. -/
theorem connect_sales_fanout_warns (c : Connection) (s : Snapshot) (n : FunnelNode)
    (src tgt : String)
    (hsrc : c.source = some src) (htgt : c.target = some tgt)
    (hsrcne : src ≠ "") (htgtne : tgt ≠ "")
    (hfind : s.nodes.find? (fun m => c.source == some m.id) = some n)
    (hty : n.data.type = .sales)
    (hout : 1 ≤ (s.edges.filter fun e => e.source == n.id).length)
    (hnodup : connectionExists (mkNewEdge src tgt c.sourceHandle c.targetHandle) s.edges
      = false) :
    (onConnect c s).edges.length = s.edges.length + 1 ∧
    multipleOutgoingIssue n ∈ getValidationIssues (onConnect c s) := by
  have hthank : isThankyouSource (s.nodes.find? fun m => c.source == some m.id) = false := by
    rw [hfind]
    simp [isThankyouSource, hty]
  have hid : n.id = src := by
    have hp := List.find?_some hfind
    rw [hsrc] at hp
    have h2 : src = n.id := by simpa using hp
    exact h2.symm
  have hf : (strFalsy (some (mkNewEdge src tgt c.sourceHandle c.targetHandle).source)
      || strFalsy (some (mkNewEdge src tgt c.sourceHandle c.targetHandle).target))
      = false := by
    simp [strFalsy, mkNewEdge, hsrcne, htgtne]
  have hedges : (onConnect c s).edges
      = s.edges ++ [mkNewEdge src tgt c.sourceHandle c.targetHandle] := by
    rw [onConnect, hthank]
    simp only [Bool.false_eq_true, if_false]
    rw [connectEdge, hsrc, htgt]
    simp only [addEdge, hf, Bool.false_eq_true, if_false, hnodup]
  constructor
  · rw [hedges]
    simp
  · have hn' : n ∈ s.nodes := List.mem_of_find?_eq_some hfind
    have hnodes : (onConnect c s).nodes = s.nodes := onConnect_nodes c s
    have hcnt : ((s.edges ++ [mkNewEdge src tgt c.sourceHandle c.targetHandle]).filter
        (fun e => e.source == n.id)).length
        = (s.edges.filter fun e => e.source == n.id).length + 1 := by
      rw [List.filter_append]
      simp [mkNewEdge, hid]
    simp only [getValidationIssues, hnodes, hedges]
    refine List.mem_append_left _ (List.mem_append_left _ (List.mem_append_right _ ?_))
    refine mem_concatMap _ (List.mem_filter.mpr ⟨hn', by simp [hty]⟩) ?_
    rw [hcnt, if_pos (by omega)]
    exact List.mem_append_left _ (List.mem_cons_self _ _)

/-- Witness for C8's amended theorem: connecting sales node `a` (one
outgoing edge to `x`) to the fresh target `b` appends the edge and the
validator warns about `a`'s fan-out. -/
theorem connect_sales_fanout_warns_w :
    (onConnect connAB snapFan).edges.length = snapFan.edges.length + 1 ∧
    multipleOutgoingIssue salesA ∈ getValidationIssues (onConnect connAB snapFan) :=
  connect_sales_fanout_warns connAB snapFan salesA "a" "b" rfl rfl (by decide) (by decide)
    (by decide) rfl (by decide) (by decide)

/-- C9 counterexample: from the empty snapshot, a single `connect` call
with ids of nonexistent nodes is accepted — `onConnect` never checks the
endpoints — leaving an edge that references no present node. -/
theorem connect_unknown_ids_counter :
    (runActs [Act.connect connAB] emptySnapshot).edges.length = 1 ∧
    (runActs [Act.connect connAB] emptySnapshot).nodes = [] ∧
    ¬ EdgesWellFormed (runActs [Act.connect connAB] emptySnapshot) := by
  refine ⟨by decide, by decide, ?_⟩
  intro h
  have hmem := h (mkNewEdge "a" "b" none none) (by decide)
  rcases hmem.1 with ⟨n, hn, _⟩
  rw [show (runActs [Act.connect connAB] emptySnapshot).nodes = [] from rfl] at hn
  cases hn

/-- C9 amended: in every snapshot reachable from the empty snapshot by
the five public operations, with `connect` invoked — as the canvas does —
only with source and target ids of nodes present at call time, every
edge's source and target are ids of nodes currently present. -/
theorem reachable_edges_wellformed (s : Snapshot) (h : ReachableG s) :
    EdgesWellFormed s := by
  induction h with
  | empty =>
    intro e he
    cases he
  | addNode t p now hre ih =>
    intro e he
    obtain ⟨⟨n1, hn1, hid1⟩, ⟨n2, hn2, hid2⟩⟩ := ih e he
    exact ⟨⟨n1, List.mem_append_left _ hn1, hid1⟩,
           ⟨n2, List.mem_append_left _ hn2, hid2⟩⟩
  | deleteNode x hre ih =>
    intro e he
    have hef := List.mem_filter.mp he
    obtain ⟨⟨n1, hn1, hid1⟩, ⟨n2, hn2, hid2⟩⟩ := ih e hef.1
    have hcond := hef.2
    simp only [Bool.and_eq_true, bne_iff_ne, ne_eq] at hcond
    refine ⟨⟨n1, List.mem_filter.mpr ⟨hn1, ?_⟩, hid1⟩,
            ⟨n2, List.mem_filter.mpr ⟨hn2, ?_⟩, hid2⟩⟩
    · simp only [bne_iff_ne, ne_eq, hid1]
      exact hcond.1
    · simp only [bne_iff_ne, ne_eq, hid2]
      exact hcond.2
  | deleteEdge x hre ih =>
    intro e he
    exact ih e (List.mem_filter.mp he).1
  | updateNodeLabel x l hre ih =>
    intro e he
    obtain ⟨⟨n1, hn1, hid1⟩, ⟨n2, hn2, hid2⟩⟩ := ih e he
    refine ⟨⟨if n1.id = x then relabel n1 l else n1, List.mem_map_of_mem _ hn1, ?_⟩,
            ⟨if n2.id = x then relabel n2 l else n2, List.mem_map_of_mem _ hn2, ?_⟩⟩
    · have hkeep : (if n1.id = x then relabel n1 l else n1).id = n1.id := by
        by_cases h1 : n1.id = x
        · rw [if_pos h1]
          rfl
        · rw [if_neg h1]
      rw [hkeep]
      exact hid1
    · have hkeep : (if n2.id = x then relabel n2 l else n2).id = n2.id := by
        by_cases h2 : n2.id = x
        · rw [if_pos h2]
          rfl
        · rw [if_neg h2]
      rw [hkeep]
      exact hid2
  | connect c hre hsrcg htgtg ih =>
    intro e he
    rw [onConnect_nodes]
    rw [onConnect] at he
    split at he
    · exact ih e he
    · rw [connectEdge] at he
      split at he
      · rename_i src tgt hsome httgt
        rcases mem_addEdge he with h1 | h1
        · exact ih e h1
        · subst h1
          obtain ⟨n1, hn1, hid1⟩ := hsrcg
          obtain ⟨n2, hn2, hid2⟩ := htgtg
          rw [hsome] at hid1
          rw [httgt] at hid2
          exact ⟨⟨n1, hn1, (Option.some.inj hid1).symm⟩,
                 ⟨n2, hn2, (Option.some.inj hid2).symm⟩⟩
      · exact ih e he

/-- Witness for C9's amended theorem: the concrete reachable snapshot
with a sales node connected to a thank-you node has referentially intact
edges. -/
theorem reachable_edges_wellformed_w : EdgesWellFormed snapGen := by
  apply reachable_edges_wellformed
  exact ReachableG.connect connGen
    (ReachableG.addNode .thankyou ⟨0, 200⟩ 2
      (ReachableG.addNode .sales ⟨0, 0⟩ 1 ReachableG.empty))
    (by decide) (by decide)

end Funnel
